import Mathlib

/-!
Verification of the FLIR One Pro LT driver core against its specification.

The development shallowly embeds the driver's core modules:

* `frame_parser.py` — the resynchronizing frame parser (`FrameParser`,
  `add_chunk`, `_try_parse_frame`, `_resync_buffer`, `_resync_from_chunk`,
  `reset`), modelled as explicit state passing over a `FrameParser`
  structure.  Python `bytearray` buffers become `List Nat` (one entry per
  byte); slice reads and slice assignments become `pySlice` / `listWrite`,
  which mirror Python slicing semantics exactly at the offsets the source
  uses.
* `thermal.py` — the radiometric converter `ThermalContext.raw2temp`.
  All arithmetic before the final logarithm is exact rational arithmetic
  (`ℚ`); the final `B / log(val) - 273.15` is modelled over `ℝ` with
  `Real.log`, idealizing IEEE float32 to exact reals.
* `camera.py` — the facade's `_make_frame` statistics.  The helpers
  `raw_to_celsius` and `get_temperature_stats` are imported by
  `camera.py` from `flir.thermal` but are absent from the provided
  sources, so they are modelled from the specification (see their doc
  comments).
* `usb_driver.py` — the error-handling shape of `USBDriver.read`,
  modelled over an abstract USB transfer outcome.
-/

/-! ## Byte-buffer primitives (Python `bytes` / `bytearray` semantics) -/

/-- Python slice read `l[a:b]` (for `0 ≤ a`, `0 ≤ b`): take the prefix of
length `b`, then drop the first `a` entries.  Out-of-range bounds clamp,
exactly as in Python. -/
def pySlice (l : List Nat) (a b : Nat) : List Nat := (l.take b).drop a

/-- Python `bytearray` slice assignment `l[a : a + v.length] = v`
(the only form the source uses): the result is `l[:a] ++ v ++ l[a+len(v):]`. -/
def listWrite (l : List Nat) (a : Nat) (v : List Nat) : List Nat :=
  l.take a ++ v ++ l.drop (a + v.length)

/-- Read byte `i` of a buffer (0 when out of range; all source reads are
in range under the parser's guards). -/
def byteAt (l : List Nat) (i : Nat) : Nat := l.getD i 0

/-- `struct.unpack_from('<I', l, k)`: little-endian unsigned 32-bit read at
offset `k`. -/
def u32le (l : List Nat) (k : Nat) : Nat :=
  byteAt l k + 256 * byteAt l (k + 1) + 65536 * byteAt l (k + 2) +
    16777216 * byteAt l (k + 3)

/-! ## Frame parser (src/flir/frame_parser.py) -/

/-- Magic bytes that mark the start of each frame (`EF BE 00 00`). -/
def MAGIC_BYTES : List Nat := [0xEF, 0xBE, 0x00, 0x00]

def THERMAL_WIDTH : Nat := 80
def THERMAL_HEIGHT : Nat := 60
def THERMAL_PIXELS : Nat := THERMAL_WIDTH * THERMAL_HEIGHT
def HEADER_SIZE : Nat := 28

/-- `np.frombuffer(bytes, dtype='>u2')`: decode pairs of bytes as
big-endian unsigned 16-bit values. -/
def toU16be : List Nat → List Nat
  | a :: b :: rest => (256 * a + b) :: toU16be rest
  | _ => []

/-- `reshape((60, 80))` of a row-major vector of 4800 samples. -/
def reshape6080 (vals : List Nat) : List (List Nat) :=
  (List.range THERMAL_HEIGHT).map fun r =>
    (List.range THERMAL_WIDTH).map fun c => vals.getD (r * THERMAL_WIDTH + c) 0

/-- `np.zeros((60, 80), dtype=np.uint16)`. -/
def zeroMatrix : List (List Nat) := List.replicate THERMAL_HEIGHT (List.replicate THERMAL_WIDTH 0)

/-- Parsed frame data from the camera (dataclass `ParsedFrame`). -/
structure ParsedFrame where
  thermal_raw : List (List Nat)
  visible_jpeg : Option (List Nat)
  status_data : Option (List Nat)
  frame_size : Nat
  thermal_size : Nat
  jpeg_size : Nat
  status_size : Nat
deriving DecidableEq

/-- Parser state: fixed-capacity byte buffer (`bytearray(buffer_size)`,
zero-initialized), valid-byte count `buffer_ptr`, and the capacity. -/
structure FrameParser where
  buffer : List Nat
  buffer_ptr : Nat
  buffer_size : Nat
deriving DecidableEq

/-- `FrameParser.__init__`. -/
def FrameParser.init (buffer_size : Nat) : FrameParser :=
  ⟨List.replicate buffer_size 0, 0, buffer_size⟩

/-- `bytes.index(MAGIC_BYTES, 0)` wrapped by `_find_magic`: index of the
first occurrence of the 4-byte magic sequence, `none` when absent. -/
def find_magic : List Nat → Option Nat
  | [] => none
  | a :: rest =>
    if (a :: rest).take 4 = MAGIC_BYTES then some 0
    else (find_magic rest).map (· + 1)

/-- `FrameParser._resync_buffer`: scan `buffer[1:buffer_ptr]` for the next
magic; on a hit shift the buffer down, otherwise keep the last 3 bytes. -/
def resync_buffer (st : FrameParser) : FrameParser :=
  match find_magic (pySlice st.buffer 1 st.buffer_ptr) with
  | some p =>
    let pos := p + 1
    let remaining := st.buffer_ptr - pos
    { st with buffer := listWrite st.buffer 0 (pySlice st.buffer pos st.buffer_ptr),
              buffer_ptr := remaining }
  | none =>
    let keep := min 3 st.buffer_ptr
    { st with buffer := listWrite st.buffer 0 (pySlice st.buffer (st.buffer_ptr - keep) st.buffer_ptr),
              buffer_ptr := keep }

/-- `FrameParser._resync_from_chunk`: on buffer overflow, search the new
chunk for magic; copy `data[pos:pos+remaining]` (truncated to capacity) to
the start, or keep the chunk's last 3 bytes. -/
def resync_from_chunk (st : FrameParser) (data : List Nat) : FrameParser :=
  match find_magic data with
  | some pos =>
    let remaining0 := data.length - pos
    let remaining := if st.buffer_size < remaining0 then st.buffer_size else remaining0
    { st with buffer := listWrite st.buffer 0 (pySlice data pos (pos + remaining)),
              buffer_ptr := remaining }
  | none =>
    let keep := min 3 data.length
    { st with buffer := listWrite st.buffer 0 (data.drop (data.length - keep)),
              buffer_ptr := keep }

/-- `FrameParser._try_parse_frame`. -/
def try_parse_frame (st : FrameParser) : FrameParser × Option ParsedFrame :=
  if st.buffer_ptr < HEADER_SIZE + 4 then (st, none)
  else
    let frame_size := u32le st.buffer 8
    let thermal_size := u32le st.buffer 12
    let jpeg_size := u32le st.buffer 16
    let status_size := u32le st.buffer 20
    if frame_size = 0 ∨ st.buffer_size < frame_size + HEADER_SIZE then
      ({ st with buffer_ptr := 0 }, none)
    else if st.buffer_ptr < HEADER_SIZE + frame_size then (st, none)
    else if st.buffer_ptr < HEADER_SIZE + thermal_size + jpeg_size then
      ({ st with buffer_ptr := 0 }, none)
    else
      let thermal_end := HEADER_SIZE + thermal_size
      let thermal_bytes := pySlice st.buffer HEADER_SIZE thermal_end
      let thermal_raw :=
        if THERMAL_PIXELS * 2 ≤ thermal_bytes.length then
          reshape6080 (toU16be (thermal_bytes.take (THERMAL_PIXELS * 2)))
        else zeroMatrix
      let jpeg_end := thermal_end + jpeg_size
      let visible_jpeg :=
        if 0 < jpeg_size then some (pySlice st.buffer thermal_end jpeg_end) else none
      let status_end := jpeg_end + status_size
      let status_data :=
        if 0 < status_size then some (pySlice st.buffer jpeg_end status_end) else none
      let frame : ParsedFrame :=
        ⟨thermal_raw, visible_jpeg, status_data, frame_size, thermal_size, jpeg_size, status_size⟩
      let consumed := HEADER_SIZE + frame_size
      let remaining := st.buffer_ptr - consumed
      let buffer2 :=
        if 0 < remaining then listWrite st.buffer 0 (pySlice st.buffer consumed st.buffer_ptr)
        else st.buffer
      ({ st with buffer := buffer2, buffer_ptr := remaining }, some frame)

/-- `FrameParser.add_chunk`. -/
def add_chunk (st : FrameParser) (data : List Nat) : FrameParser × Option ParsedFrame :=
  if data = [] then (st, none)
  else if st.buffer_size ≤ st.buffer_ptr + data.length then
    (resync_from_chunk st data, none)
  else
    let st1 : FrameParser :=
      { st with buffer := listWrite st.buffer st.buffer_ptr data,
                buffer_ptr := st.buffer_ptr + data.length }
    if st1.buffer_ptr < 4 then (st1, none)
    else if pySlice st1.buffer 0 4 ≠ MAGIC_BYTES then (resync_buffer st1, none)
    else try_parse_frame st1

/-- `FrameParser.reset`: clear the valid-byte count. -/
def FrameParser.reset (st : FrameParser) : FrameParser := { st with buffer_ptr := 0 }

/-- Feed a list of chunks in order, collecting each call's result. -/
def runChunks (st : FrameParser) (chunks : List (List Nat)) :
    FrameParser × List (Option ParsedFrame) :=
  match chunks with
  | [] => (st, [])
  | d :: rest =>
    let s1 := add_chunk st d
    let s2 := runChunks s1.1 rest
    (s2.1, s1.2 :: s2.2)

/-- The pure extraction a complete, self-consistent frame buffer yields:
the four header fields and the three payload slices read directly from the
frame's wire bytes, with the source's short-thermal zero fallback. -/
def frameOfBytes (data : List Nat) : ParsedFrame :=
  let frame_size := u32le data 8
  let thermal_size := u32le data 12
  let jpeg_size := u32le data 16
  let status_size := u32le data 20
  let thermal_end := HEADER_SIZE + thermal_size
  let thermal_bytes := pySlice data HEADER_SIZE thermal_end
  { thermal_raw :=
      if THERMAL_PIXELS * 2 ≤ thermal_bytes.length then
        reshape6080 (toU16be (thermal_bytes.take (THERMAL_PIXELS * 2)))
      else zeroMatrix,
    visible_jpeg :=
      if 0 < jpeg_size then some (pySlice data thermal_end (thermal_end + jpeg_size)) else none,
    status_data :=
      if 0 < status_size then
        some (pySlice data (thermal_end + jpeg_size) (thermal_end + jpeg_size + status_size))
      else none,
    frame_size := frame_size,
    thermal_size := thermal_size,
    jpeg_size := jpeg_size,
    status_size := status_size }

/-! ## Radiometric converter (src/flir/thermal.py) -/

/-- Calibration record held by `ThermalContext.config`. -/
structure Calib where
  PlanckR1 : ℚ
  PlanckB : ℚ
  PlanckF : ℚ
  PlanckO : ℚ
  Emissivity : ℚ
  ReflectedApparentTemperature : ℚ

/-- Built-in defaults from `ThermalContext.__init__`. -/
def defaultCalib : Calib :=
  { PlanckR1 := 2110677 / 100
    PlanckB := 15068 / 10
    PlanckF := 1
    PlanckO := -7340
    Emissivity := 95 / 100
    ReflectedApparentTemperature := 20 }

/-- Clamp of `raw2temp`: `if safe_raw <= O: safe_raw = O + 1.0`. -/
def stageSafe (c : Calib) (r : ℚ) : ℚ := if r ≤ c.PlanckO then c.PlanckO + 1 else r

/-- `denom = safe_raw - O` followed by `if denom == 0: denom = 1.0`. -/
def stageDenom (c : Calib) (s : ℚ) : ℚ :=
  if s - c.PlanckO = 0 then 1 else s - c.PlanckO

/-- `val = R1 / denom + F` followed by `if val <= 0: val = 1.0`. -/
def stageVal (c : Calib) (d : ℚ) : ℚ :=
  if c.PlanckR1 / d + c.PlanckF ≤ 0 then 1 else c.PlanckR1 / d + c.PlanckF

/-- `temp_k = B / np.log(val); temp_c = temp_k - 273.15`, idealized over ℝ. -/
noncomputable def stageTemp (c : Calib) (v : ℚ) : ℝ :=
  (c.PlanckB : ℝ) / Real.log (v : ℝ) - 273.15

/-- The (exact, rational) argument the source passes to `np.log`. -/
def valQ (c : Calib) (r : ℚ) : ℚ := stageVal c (stageDenom c (stageSafe c r))

/-- Scalar path of `ThermalContext.raw2temp`. -/
noncomputable def raw2temp (c : Calib) (r : ℚ) : ℝ := stageTemp c (valQ c r)

/-- Finiteness-instrumented `raw2temp`.  Under exact real semantics the
computation produces a non-finite float value exactly when `np.log(val)`
is zero (`B / 0.0` is `±inf`, or NaN when `B = 0`); since the clamps force
`val > 0`, that happens iff `val = 1`.  The checked variant returns `none`
precisely in that case and the finite Celsius value otherwise. -/
noncomputable def raw2tempChecked (c : Calib) (r : ℚ) : Option ℝ :=
  if valQ c r = 1 then none else some (raw2temp c r)

/-- Apply a function to every entry of a matrix (one elementwise numpy
operation). -/
def mapMat (f : α → β) (M : List (List α)) : List (List β) :=
  M.map fun row => row.map f

/-- Array path of `ThermalContext.raw2temp`: the same four stages, each
applied elementwise over the matrix exactly as the numpy masked
assignments do. -/
noncomputable def raw2tempMat (c : Calib) (M : List (List ℚ)) : List (List ℝ) :=
  mapMat (stageTemp c) (mapMat (stageVal c) (mapMat (stageDenom c) (mapMat (stageSafe c) M)))

/-! ## Camera facade statistics (src/flir/camera.py) -/

/-- View a raw 16-bit matrix as exact rationals (float32 represents all
16-bit raw counts exactly). -/
def matQ (M : List (List Nat)) : List (List ℚ) := mapMat (fun n : Nat => (n : ℚ)) M

/-- Modelled from the spec: `raw_to_celsius` is imported by `camera.py`
from `flir.thermal` but is absent from the provided sources.  Per the
specification's data flow ("Converter applied to raw_thermal") it applies
the radiometric converter to the whole 60×80 raw matrix. -/
noncomputable def raw_to_celsius (c : Calib) (M : List (List ℚ)) : List (List ℝ) :=
  raw2tempMat c M

/-- Minimum of a list of reals (`np.min`; 0 for the empty list, which the
source never hits). -/
noncomputable def listMin : List ℝ → ℝ
  | [] => 0
  | x :: xs => xs.foldl min x

/-- Maximum of a list of reals (`np.max`). -/
noncomputable def listMax : List ℝ → ℝ
  | [] => 0
  | x :: xs => xs.foldl max x

/-- Statistics record produced by `get_temperature_stats`. -/
structure TempStats where
  min_c : ℝ
  max_c : ℝ
  mean_c : ℝ
  min_location : Nat × Nat
  max_location : Nat × Nat

/-- Modelled from the spec: `get_temperature_stats` is imported by
`camera.py` from `flir.thermal` but is absent from the provided sources.
Per spec §4.4 it computes min, max and mean Celsius over the 60×80
Celsius matrix and the `(x, y)` coordinates (x the column, y the row) of
the argmin and argmax cells; the argmin/argmax is the first matching cell
in row-major order (`np.argmin` / `np.unravel_index`). -/
noncomputable def get_temperature_stats (c : Calib) (M : List (List ℚ)) : TempStats :=
  let cels := raw_to_celsius c M
  let flatC := cels.flatten
  let mn := listMin flatC
  let mx := listMax flatC
  let iMin := flatC.findIdx fun x => decide (x = mn)
  let iMax := flatC.findIdx fun x => decide (x = mx)
  { min_c := mn
    max_c := mx
    mean_c := flatC.sum / (flatC.length : ℝ)
    min_location := (iMin % THERMAL_WIDTH, iMin / THERMAL_WIDTH)
    max_location := (iMax % THERMAL_WIDTH, iMax / THERMAL_WIDTH) }

/-- The statistics part of `FLIRFrame` (`camera.py`).  The presentation
fields (`thermal_8bit`, `thermal_colored`, decoded JPEG, timestamp) are
out of the model's scope. -/
structure FLIRFrame where
  thermal_raw : List (List Nat)
  min_temp_c : ℝ
  max_temp_c : ℝ
  mean_temp_c : ℝ
  hotspot : Nat × Nat
  coldspot : Nat × Nat

/-- `FLIRCamera._make_frame`, restricted to the statistics fields: the
facade fills them from `get_temperature_stats(parsed.thermal_raw)`. -/
noncomputable def make_frame (c : Calib) (parsed : ParsedFrame) : FLIRFrame :=
  let stats := get_temperature_stats c (matQ parsed.thermal_raw)
  { thermal_raw := parsed.thermal_raw
    min_temp_c := stats.min_c
    max_temp_c := stats.max_c
    mean_temp_c := stats.mean_c
    hotspot := stats.max_location
    coldspot := stats.min_location }

/-! ## USB transport read (src/flir/usb_driver.py) -/

/-- Outcome of one `device.read(EP_IN, BUFFER_SIZE, timeout)` bulk
transfer: success, a `USBTimeoutError`, or a `USBError` with an errno. -/
inductive USBEvent where
  | ok (data : List Nat)
  | timeoutErr
  | usbErr (errno : Int)
deriving DecidableEq

/-- `USBDriver.read`: result is `Except.error e` when a typed error is
surfaced (raised) to the caller, `Except.ok v` when the call returns `v`.
The source returns `None` when no device is set, on `USBTimeoutError`,
on `USBError` with errno 110 (timeout) or 19 (`ENODEV`), and — after
printing — on every other `USBError` as well. -/
def USBDriver.read (hasDevice : Bool) (ev : USBEvent) : Except Int (Option (List Nat)) :=
  if hasDevice = false then Except.ok none
  else
    match ev with
    | .ok d => Except.ok (some d)
    | .timeoutErr => Except.ok none
    | .usbErr n => if n = 110 ∨ n = 19 then Except.ok none else Except.ok none

/-! ## Basic lemmas about the byte-buffer primitives -/

lemma listWrite_zero (l v : List Nat) : listWrite l 0 v = v ++ l.drop v.length := by
  simp [listWrite]

lemma length_listWrite_zero (l v : List Nat) (h : v.length ≤ l.length) :
    (listWrite l 0 v).length = l.length := by
  simp [listWrite]
  omega

lemma length_listWrite (l v : List Nat) (a : Nat) (h : a + v.length ≤ l.length) :
    (listWrite l a v).length = l.length := by
  simp [listWrite]
  omega

lemma take_len_append (v w : List Nat) : (v ++ w).take v.length = v := by
  simp

lemma take_listWrite_zero (l v : List Nat) : (listWrite l 0 v).take v.length = v := by
  rw [listWrite_zero, take_len_append]

lemma take_listWrite (l v : List Nat) (a : Nat) (h : a ≤ l.length) :
    (listWrite l a v).take (a + v.length) = l.take a ++ v := by
  unfold listWrite
  have hlen : (l.take a).length = a := by simp [h]
  rw [List.append_assoc]
  rw [show a + v.length = (l.take a).length + v.length by rw [hlen]]
  rw [List.take_append, take_len_append]

lemma byteAt_take (l : List Nat) (i n : Nat) (h : i < n) :
    byteAt (l.take n) i = byteAt l i := by
  simp [byteAt, List.getElem?_take_of_lt h]

lemma byteAt_of_take_eq {s t : List Nat} {n : Nat} (h : s.take n = t.take n)
    (i : Nat) (hi : i < n) : byteAt s i = byteAt t i := by
  rw [← byteAt_take s i n hi, ← byteAt_take t i n hi, h]

lemma u32le_of_take_eq {s t : List Nat} {n : Nat} (h : s.take n = t.take n)
    (k : Nat) (hk : k + 4 ≤ n) : u32le s k = u32le t k := by
  unfold u32le
  rw [byteAt_of_take_eq h k (by omega), byteAt_of_take_eq h (k+1) (by omega),
    byteAt_of_take_eq h (k+2) (by omega), byteAt_of_take_eq h (k+3) (by omega)]

lemma take_eq_take_of_take_eq {s t : List Nat} {n : Nat} (h : s.take n = t.take n)
    (b : Nat) (hb : b ≤ n) : s.take b = t.take b := by
  have hs : s.take b = (s.take n).take b := by
    rw [List.take_take, Nat.min_eq_left hb]
  have ht : t.take b = (t.take n).take b := by
    rw [List.take_take, Nat.min_eq_left hb]
  rw [hs, ht, h]

lemma pySlice_of_take_eq {s t : List Nat} {n : Nat} (h : s.take n = t.take n)
    (a b : Nat) (hb : b ≤ n) : pySlice s a b = pySlice t a b := by
  unfold pySlice
  rw [take_eq_take_of_take_eq h b hb]

lemma pySlice_length (l : List Nat) (a b : Nat) :
    (pySlice l a b).length = min b l.length - a := by
  simp [pySlice]

lemma byteAt_append_left (l₁ l₂ : List Nat) (i : Nat) (h : i < l₁.length) :
    byteAt (l₁ ++ l₂) i = byteAt l₁ i := by
  simp [byteAt, List.getElem?_append_left h]

lemma u32le_append_left (l₁ l₂ : List Nat) (k : Nat) (h : k + 4 ≤ l₁.length) :
    u32le (l₁ ++ l₂) k = u32le l₁ k := by
  unfold u32le
  rw [byteAt_append_left _ _ _ (by omega), byteAt_append_left _ _ _ (by omega),
    byteAt_append_left _ _ _ (by omega), byteAt_append_left _ _ _ (by omega)]

lemma pySlice_append_left (l₁ l₂ : List Nat) (a b : Nat) (h : b ≤ l₁.length) :
    pySlice (l₁ ++ l₂) a b = pySlice l₁ a b := by
  unfold pySlice
  rw [List.take_append_of_le_length h]

lemma pySlice_zero (l : List Nat) (b : Nat) : pySlice l 0 b = l.take b := by
  simp [pySlice]

lemma find_magic_bound (l : List Nat) (p : Nat) (h : find_magic l = some p) :
    p + 4 ≤ l.length := by
  induction l generalizing p with
  | nil => simp [find_magic] at h
  | cons a rest ih =>
    rw [find_magic] at h
    by_cases hm : (a :: rest).take 4 = MAGIC_BYTES
    · rw [if_pos hm] at h
      cases h
      have h4 : (List.take 4 (a :: rest)).length = 4 := by
        rw [hm]; rfl
      simp at h4
      simp only [List.length_cons]
      omega
    · rw [if_neg hm] at h
      cases hfm : find_magic rest with
      | none => rw [hfm] at h; simp at h
      | some q =>
        rw [hfm] at h
        simp at h
        have := ih q hfm
        simp [← h]
        omega

/-! ## Symbolic execution lemmas for `add_chunk` -/

lemma add_chunk_magic_append (buf data : List Nat) (cap : Nat)
    (hM : data.take 4 = MAGIC_BYTES) (h4 : 4 ≤ data.length) (hOv : data.length < cap) :
    add_chunk ⟨buf, 0, cap⟩ data =
      try_parse_frame ⟨data ++ buf.drop data.length, data.length, cap⟩ := by
  have hne : data ≠ [] := by
    intro h
    rw [h] at h4
    simp at h4
  simp only [add_chunk, Nat.zero_add]
  rw [if_neg hne]
  rw [if_neg (show ¬ (cap ≤ data.length) by omega)]
  rw [listWrite_zero]
  rw [if_neg (show ¬ (data.length < 4) by omega)]
  have hmg : pySlice (data ++ buf.drop data.length) 0 4 = MAGIC_BYTES := by
    rw [pySlice_zero, List.take_append_of_le_length h4, hM]
  rw [if_neg (not_not_intro hmg)]

lemma try_parse_bad_header (data rest : List Nat) (cap : Nat)
    (h32 : HEADER_SIZE + 4 ≤ data.length)
    (hbad : u32le data 8 = 0 ∨ cap < u32le data 8 + HEADER_SIZE) :
    try_parse_frame ⟨data ++ rest, data.length, cap⟩ = (⟨data ++ rest, 0, cap⟩, none) := by
  have h8 : u32le (data ++ rest) 8 = u32le data 8 :=
    u32le_append_left _ _ _ (by simp only [HEADER_SIZE] at h32; omega)
  simp only [try_parse_frame]
  rw [if_neg (show ¬ (data.length < HEADER_SIZE + 4) by omega)]
  rw [h8]
  rw [if_pos hbad]

lemma try_parse_inconsistent (data rest : List Nat) (cap : Nat)
    (h32 : HEADER_SIZE + 4 ≤ data.length)
    (hFs : u32le data 8 ≠ 0)
    (hCap : u32le data 8 + HEADER_SIZE ≤ cap)
    (hAvail : HEADER_SIZE + u32le data 8 ≤ data.length)
    (hChk : data.length < HEADER_SIZE + u32le data 12 + u32le data 16) :
    try_parse_frame ⟨data ++ rest, data.length, cap⟩ = (⟨data ++ rest, 0, cap⟩, none) := by
  have hlen32 : 32 ≤ data.length := by simp only [HEADER_SIZE] at h32; omega
  have h8 : u32le (data ++ rest) 8 = u32le data 8 :=
    u32le_append_left _ _ _ (by omega)
  have h12 : u32le (data ++ rest) 12 = u32le data 12 :=
    u32le_append_left _ _ _ (by omega)
  have h16 : u32le (data ++ rest) 16 = u32le data 16 :=
    u32le_append_left _ _ _ (by omega)
  simp only [try_parse_frame]
  rw [if_neg (show ¬ (data.length < HEADER_SIZE + 4) by omega)]
  rw [h8, h12, h16]
  rw [if_neg (show ¬ (u32le data 8 = 0 ∨ cap < u32le data 8 + HEADER_SIZE) by
    push_neg
    exact ⟨hFs, by omega⟩)]
  rw [if_neg (show ¬ (data.length < HEADER_SIZE + u32le data 8) by omega)]
  rw [if_pos hChk]

lemma try_parse_complete (data rest : List Nat) (cap : Nat)
    (hLen : data.length = HEADER_SIZE + u32le data 8)
    (hFs4 : 4 ≤ u32le data 8)
    (hCap : u32le data 8 + HEADER_SIZE ≤ cap)
    (hSz : u32le data 12 + u32le data 16 + u32le data 20 ≤ u32le data 8) :
    try_parse_frame ⟨data ++ rest, data.length, cap⟩ =
      (⟨data ++ rest, 0, cap⟩, some (frameOfBytes data)) := by
  have hFs : u32le data 8 ≠ 0 := by omega
  have hlen32 : 32 ≤ data.length := by simp only [HEADER_SIZE] at hLen; omega
  have h8 : u32le (data ++ rest) 8 = u32le data 8 :=
    u32le_append_left _ _ _ (by omega)
  have h12 : u32le (data ++ rest) 12 = u32le data 12 :=
    u32le_append_left _ _ _ (by omega)
  have h16 : u32le (data ++ rest) 16 = u32le data 16 :=
    u32le_append_left _ _ _ (by omega)
  have h20 : u32le (data ++ rest) 20 = u32le data 20 :=
    u32le_append_left _ _ _ (by omega)
  have hth : pySlice (data ++ rest) HEADER_SIZE (HEADER_SIZE + u32le data 12) =
      pySlice data HEADER_SIZE (HEADER_SIZE + u32le data 12) :=
    pySlice_append_left _ _ _ _ (by simp only [HEADER_SIZE] at hLen ⊢; omega)
  have hjp : pySlice (data ++ rest) (HEADER_SIZE + u32le data 12)
      (HEADER_SIZE + u32le data 12 + u32le data 16) =
      pySlice data (HEADER_SIZE + u32le data 12) (HEADER_SIZE + u32le data 12 + u32le data 16) :=
    pySlice_append_left _ _ _ _ (by simp only [HEADER_SIZE] at hLen ⊢; omega)
  have hst : pySlice (data ++ rest) (HEADER_SIZE + u32le data 12 + u32le data 16)
      (HEADER_SIZE + u32le data 12 + u32le data 16 + u32le data 20) =
      pySlice data (HEADER_SIZE + u32le data 12 + u32le data 16)
        (HEADER_SIZE + u32le data 12 + u32le data 16 + u32le data 20) :=
    pySlice_append_left _ _ _ _ (by simp only [HEADER_SIZE] at hLen ⊢; omega)
  simp only [try_parse_frame]
  rw [if_neg (show ¬ (data.length < HEADER_SIZE + 4) by omega)]
  rw [h8, h12, h16, h20]
  rw [if_neg (show ¬ (u32le data 8 = 0 ∨ cap < u32le data 8 + HEADER_SIZE) by
    push_neg
    exact ⟨hFs, by omega⟩)]
  rw [if_neg (show ¬ (data.length < HEADER_SIZE + u32le data 8) by omega)]
  rw [if_neg (show ¬ (data.length < HEADER_SIZE + u32le data 12 + u32le data 16) by omega)]
  rw [hth, hjp, hst]
  rw [if_neg (show ¬ (0 < data.length - (HEADER_SIZE + u32le data 8)) by omega)]
  rw [show data.length - (HEADER_SIZE + u32le data 8) = 0 by omega]
  rfl

lemma add_chunk_parses_complete (buf data : List Nat) (cap : Nat)
    (hM : data.take 4 = MAGIC_BYTES)
    (hLen : data.length = HEADER_SIZE + u32le data 8)
    (hFs4 : 4 ≤ u32le data 8)
    (hCap : u32le data 8 + HEADER_SIZE ≤ cap)
    (hOv : data.length < cap)
    (hSz : u32le data 12 + u32le data 16 + u32le data 20 ≤ u32le data 8) :
    add_chunk ⟨buf, 0, cap⟩ data =
      (⟨data ++ buf.drop data.length, 0, cap⟩, some (frameOfBytes data)) := by
  have h4 : 4 ≤ data.length := by
    simp only [HEADER_SIZE] at hLen
    omega
  rw [add_chunk_magic_append buf data cap hM h4 hOv]
  exact try_parse_complete data (buf.drop data.length) cap hLen hFs4 hCap hSz

lemma add_chunk_bad_header (buf data : List Nat) (cap : Nat)
    (hM : data.take 4 = MAGIC_BYTES)
    (h32 : HEADER_SIZE + 4 ≤ data.length)
    (hOv : data.length < cap)
    (hbad : u32le data 8 = 0 ∨ cap < u32le data 8 + HEADER_SIZE) :
    add_chunk ⟨buf, 0, cap⟩ data = (⟨data ++ buf.drop data.length, 0, cap⟩, none) := by
  have h4 : 4 ≤ data.length := by
    simp only [HEADER_SIZE] at h32
    omega
  rw [add_chunk_magic_append buf data cap hM h4 hOv]
  exact try_parse_bad_header data (buf.drop data.length) cap h32 hbad

/-! ## Concrete frames used as counterexamples and witnesses -/

/-- A complete 32-byte composite frame: `frame_size = 4`,
`thermal_size = 4` (< 9600), `jpeg_size = 0`, `status_size = 0`,
payload `[1, 2, 3, 4]`. -/
def c1data : List Nat :=
  [0xEF, 0xBE, 0, 0, 0, 0, 0, 0, 4, 0, 0, 0, 4, 0, 0, 0,
   0, 0, 0, 0, 0, 0, 0, 0, 0, 0, 0, 0, 1, 2, 3, 4]

/-- A complete 38-byte composite frame: `frame_size = 10`,
`thermal_size = 0`, `jpeg_size = 0`, `status_size = 100` — the declared
sub-sizes sum to 100 > frame_size = 10. -/
def c2data : List Nat :=
  [0xEF, 0xBE, 0, 0, 0, 0, 0, 0, 10, 0, 0, 0, 0, 0, 0, 0,
   0, 0, 0, 0, 100, 0, 0, 0, 0, 0, 0, 0,
   1, 2, 3, 4, 5, 6, 7, 8, 9, 10]

/-- A complete 38-byte composite frame declaring `thermal_size = 200`
with only 10 payload bytes present (`frame_size = 10`): the parser's
thermal+jpeg check trips. -/
def c2wdata : List Nat :=
  [0xEF, 0xBE, 0, 0, 0, 0, 0, 0, 10, 0, 0, 0, 200, 0, 0, 0,
   0, 0, 0, 0, 0, 0, 0, 0, 0, 0, 0, 0,
   1, 2, 3, 4, 5, 6, 7, 8, 9, 10]

/-- A 32-byte buffered prefix with magic and a full header declaring
`frame_size = 0`. -/
def c7bad : List Nat :=
  [0xEF, 0xBE, 0, 0, 0, 0, 0, 0, 0, 0, 0, 0, 0, 0, 0, 0,
   0, 0, 0, 0, 0, 0, 0, 0, 0, 0, 0, 0, 0, 0, 0, 0]

/-- Fifty bytes of `0xAB` noise (no magic anywhere). -/
def c8junk : List Nat := List.replicate 50 0xAB

/-- A complete 38-byte composite frame: `frame_size = 10`,
`thermal_size = 0`, `jpeg_size = 0`, `status_size = 50` — the declared
status region extends 40 bytes past the frame's wire bytes, so the
emitted `status_data` includes whatever follows in the buffer. -/
def c8frame : List Nat :=
  [0xEF, 0xBE, 0, 0, 0, 0, 0, 0, 10, 0, 0, 0, 0, 0, 0, 0,
   0, 0, 0, 0, 50, 0, 0, 0, 0, 0, 0, 0,
   1, 2, 3, 4, 5, 6, 7, 8, 9, 10]

/-! ## Claim C10 -/

/-- Claim C10: calling `add_chunk` with an empty byte string always
returns `None` and leaves the parser state unchanged (same buffer, same
valid-byte count), whatever the buffer currently holds. -/
theorem add_chunk_empty_unchanged (st : FrameParser) : add_chunk st [] = (st, none) := rfl

/-! ## Claim C9 -/

/-- Claim C9 counterexample: a USB error with errno 5 (neither the
timeout errno 110 nor `ENODEV` 19) makes `USBDriver.read` return `None`
(`Except.ok none`) instead of surfacing a typed error (`Except.error`). -/
theorem usb_read_error_swallowed_cex :
    USBDriver.read true (USBEvent.usbErr 5) = Except.ok none := rfl

/-- Claim C9 (amended): `USBDriver.read` never surfaces a typed error:
on timeout and on every USB error — errno 110, `ENODEV` 19, and all
others alike — it returns `None`; it only returns data on a successful
transfer. -/
theorem usb_read_never_raises (dev : Bool) (ev : USBEvent) :
    (∃ v, USBDriver.read dev ev = Except.ok v) ∧
    (∀ n : Int, USBDriver.read dev (USBEvent.usbErr n) = Except.ok none) ∧
    USBDriver.read dev USBEvent.timeoutErr = Except.ok none := by
  refine ⟨?_, ?_, ?_⟩
  · cases dev with
    | false => exact ⟨none, rfl⟩
    | true =>
      cases ev with
      | ok d => exact ⟨some d, rfl⟩
      | timeoutErr => exact ⟨none, rfl⟩
      | usbErr n =>
        refine ⟨none, ?_⟩
        by_cases h : n = 110 ∨ n = 19 <;> simp [USBDriver.read, h]
  · intro n
    cases dev with
    | false => rfl
    | true =>
      by_cases h : n = 110 ∨ n = 19 <;> simp [USBDriver.read, h]
  · cases dev <;> rfl

/-! ## Claim C1 -/

/-- Claim C1 counterexample: feeding the complete frame `c1data`
(`thermal_size = 4 < 9600`) to a fresh parser does emit a `ParsedFrame`,
and its thermal matrix is the zero-filled substitute — the frame is not
discarded. -/
theorem short_thermal_emitted_cex :
    (add_chunk (FrameParser.init 100) c1data).2 =
      some ⟨zeroMatrix, none, none, 4, 4, 0, 0⟩ := by decide

/-- Claim C1 (amended): for every complete composite frame whose header
declares `thermal_size < 9600` (and which passes the parser's other
sanity checks), `add_chunk` emits a `ParsedFrame` whose thermal matrix
is the zero-filled 60×80 fallback rather than discarding the frame. -/
theorem short_thermal_zero_fill (buf data : List Nat) (cap : Nat)
    (hM : data.take 4 = MAGIC_BYTES)
    (hLen : data.length = HEADER_SIZE + u32le data 8)
    (hFs4 : 4 ≤ u32le data 8)
    (hCap : u32le data 8 + HEADER_SIZE ≤ cap)
    (hOv : data.length < cap)
    (hSz : u32le data 12 + u32le data 16 + u32le data 20 ≤ u32le data 8)
    (hTh : u32le data 12 < THERMAL_PIXELS * 2) :
    (add_chunk ⟨buf, 0, cap⟩ data).2 = some (frameOfBytes data) ∧
    (frameOfBytes data).thermal_raw = zeroMatrix := by
  constructor
  · rw [add_chunk_parses_complete buf data cap hM hLen hFs4 hCap hOv hSz]
  · simp only [frameOfBytes]
    rw [if_neg]
    rw [pySlice_length]
    simp only [THERMAL_PIXELS, THERMAL_WIDTH, THERMAL_HEIGHT, HEADER_SIZE] at hTh hLen hSz ⊢
    omega

/-- Claim C1 witness: the amended statement instantiated at the concrete
frame `c1data` against a fresh 100-byte parser buffer. -/
theorem short_thermal_zero_fill_witness :
    (c1data.take 4 = MAGIC_BYTES ∧
      c1data.length = HEADER_SIZE + u32le c1data 8 ∧
      4 ≤ u32le c1data 8 ∧
      u32le c1data 8 + HEADER_SIZE ≤ 100 ∧
      c1data.length < 100 ∧
      u32le c1data 12 + u32le c1data 16 + u32le c1data 20 ≤ u32le c1data 8 ∧
      u32le c1data 12 < THERMAL_PIXELS * 2) ∧
    ((add_chunk ⟨List.replicate 100 0, 0, 100⟩ c1data).2 = some (frameOfBytes c1data) ∧
      (frameOfBytes c1data).thermal_raw = zeroMatrix) :=
  ⟨by decide,
    short_thermal_zero_fill (List.replicate 100 0) c1data 100 (by decide) (by decide)
      (by decide) (by decide) (by decide) (by decide) (by decide)⟩

/-! ## Claim C2 -/

/-- Claim C2 counterexample: the buffered prefix `c2data` starts with
magic and holds a full header whose declared sizes violate
`thermal_size + jpeg_size + status_size ≤ frame_size` (0 + 0 + 100 > 10),
yet `add_chunk` emits a frame instead of rejecting the header. -/
theorem status_size_unchecked_cex :
    u32le c2data 8 < u32le c2data 12 + u32le c2data 16 + u32le c2data 20 ∧
    ((add_chunk (FrameParser.init 200) c2data).2).isSome = true := by decide

/-- Claim C2 (amended): the parser's size validation compares
`HEADER_SIZE + thermal_size + jpeg_size` — `status_size` is not included
— against the buffered valid bytes, not against `frame_size`; when that
check trips, `add_chunk` resets the buffer (`valid_bytes = 0`) and
returns without emitting a frame. -/
theorem inconsistent_sizes_reset (buf data : List Nat) (cap : Nat)
    (hM : data.take 4 = MAGIC_BYTES)
    (h32 : HEADER_SIZE + 4 ≤ data.length)
    (hOv : data.length < cap)
    (hFs : u32le data 8 ≠ 0)
    (hCap : u32le data 8 + HEADER_SIZE ≤ cap)
    (hAvail : HEADER_SIZE + u32le data 8 ≤ data.length)
    (hChk : data.length < HEADER_SIZE + u32le data 12 + u32le data 16) :
    add_chunk ⟨buf, 0, cap⟩ data = (⟨data ++ buf.drop data.length, 0, cap⟩, none) := by
  have h4 : 4 ≤ data.length := by
    simp only [HEADER_SIZE] at h32
    omega
  rw [add_chunk_magic_append buf data cap hM h4 hOv]
  exact try_parse_inconsistent data (buf.drop data.length) cap h32 hFs hCap hAvail hChk

/-- Claim C2 witness: the amended statement instantiated at the concrete
frame `c2wdata` (declared `thermal_size = 200` with only 10 payload
bytes) against a fresh 100-byte parser buffer. -/
theorem inconsistent_sizes_reset_witness :
    (c2wdata.take 4 = MAGIC_BYTES ∧
      HEADER_SIZE + 4 ≤ c2wdata.length ∧
      c2wdata.length < 100 ∧
      u32le c2wdata 8 ≠ 0 ∧
      u32le c2wdata 8 + HEADER_SIZE ≤ 100 ∧
      HEADER_SIZE + u32le c2wdata 8 ≤ c2wdata.length ∧
      c2wdata.length < HEADER_SIZE + u32le c2wdata 12 + u32le c2wdata 16) ∧
    add_chunk ⟨List.replicate 100 0, 0, 100⟩ c2wdata =
      (⟨c2wdata ++ (List.replicate 100 0).drop c2wdata.length, 0, 100⟩, none) :=
  ⟨by decide,
    inconsistent_sizes_reset (List.replicate 100 0) c2wdata 100 (by decide) (by decide)
      (by decide) (by decide) (by decide) (by decide) (by decide)⟩

/-! ## Claim C7 -/

/-- Claim C7: a fully buffered header declaring `frame_size = 0` or
`frame_size + 28 >` buffer capacity is rejected: `add_chunk` returns no
frame and resets the valid-byte count to 0, and a valid frame fed
afterwards is parsed correctly. -/
theorem bad_frame_size_reset_recover (cap : Nat) (bad good : List Nat)
    (hbM : bad.take 4 = MAGIC_BYTES)
    (hb32 : HEADER_SIZE + 4 ≤ bad.length)
    (hbOv : bad.length < cap)
    (hbBad : u32le bad 8 = 0 ∨ cap < u32le bad 8 + HEADER_SIZE)
    (hgM : good.take 4 = MAGIC_BYTES)
    (hgLen : good.length = HEADER_SIZE + u32le good 8)
    (hgFs4 : 4 ≤ u32le good 8)
    (hgCap : u32le good 8 + HEADER_SIZE ≤ cap)
    (hgOv : good.length < cap)
    (hgSz : u32le good 12 + u32le good 16 + u32le good 20 ≤ u32le good 8) :
    (add_chunk (FrameParser.init cap) bad).2 = none ∧
    (add_chunk (FrameParser.init cap) bad).1.buffer_ptr = 0 ∧
    (add_chunk (add_chunk (FrameParser.init cap) bad).1 good).2 = some (frameOfBytes good) := by
  have h1 : add_chunk (FrameParser.init cap) bad =
      (⟨bad ++ (List.replicate cap 0).drop bad.length, 0, cap⟩, none) :=
    add_chunk_bad_header (List.replicate cap 0) bad cap hbM hb32 hbOv hbBad
  refine ⟨by rw [h1], by rw [h1], ?_⟩
  rw [h1]
  rw [add_chunk_parses_complete _ good cap hgM hgLen hgFs4 hgCap hgOv hgSz]

/-- Claim C7 witness: the statement instantiated with the zero
`frame_size` header `c7bad` followed by the valid frame `c1data`, with
capacity 100. -/
theorem bad_frame_size_reset_recover_witness :
    (c7bad.take 4 = MAGIC_BYTES ∧
      HEADER_SIZE + 4 ≤ c7bad.length ∧
      c7bad.length < 100 ∧
      (u32le c7bad 8 = 0 ∨ 100 < u32le c7bad 8 + HEADER_SIZE) ∧
      c1data.take 4 = MAGIC_BYTES ∧
      c1data.length = HEADER_SIZE + u32le c1data 8 ∧
      4 ≤ u32le c1data 8 ∧
      u32le c1data 8 + HEADER_SIZE ≤ 100 ∧
      c1data.length < 100 ∧
      u32le c1data 12 + u32le c1data 16 + u32le c1data 20 ≤ u32le c1data 8) ∧
    ((add_chunk (FrameParser.init 100) c7bad).2 = none ∧
      (add_chunk (FrameParser.init 100) c7bad).1.buffer_ptr = 0 ∧
      (add_chunk (add_chunk (FrameParser.init 100) c7bad).1 c1data).2 =
        some (frameOfBytes c1data)) :=
  ⟨by decide,
    bad_frame_size_reset_recover 100 c7bad c1data (by decide) (by decide) (by decide)
      (by decide) (by decide) (by decide) (by decide) (by decide) (by decide) (by decide)⟩

/-! ## Lemmas about the radiometric converter -/

lemma stageSafe_gt (c : Calib) (r : ℚ) : c.PlanckO < stageSafe c r := by
  unfold stageSafe
  split
  · linarith
  · next h => exact not_le.mp h

lemma valQ_gt_one (c : Calib) (r : ℚ) (hR1 : 0 < c.PlanckR1) (hF : 1 ≤ c.PlanckF) :
    1 < valQ c r := by
  unfold valQ
  have hs := stageSafe_gt c r
  have hdpos : 0 < stageSafe c r - c.PlanckO := sub_pos.mpr hs
  unfold stageDenom
  rw [if_neg (ne_of_gt hdpos)]
  have hdiv : 0 < c.PlanckR1 / (stageSafe c r - c.PlanckO) := div_pos hR1 hdpos
  unfold stageVal
  rw [if_neg (by linarith)]
  linarith

lemma valQ_eq_of_pos (c : Calib) (r : ℚ) (hO : c.PlanckO < r)
    (hV : 0 < c.PlanckR1 / (r - c.PlanckO) + c.PlanckF) :
    valQ c r = c.PlanckR1 / (r - c.PlanckO) + c.PlanckF := by
  unfold valQ stageSafe
  rw [if_neg (not_le.mpr hO)]
  have hdpos : 0 < r - c.PlanckO := sub_pos.mpr hO
  unfold stageDenom
  rw [if_neg (ne_of_gt hdpos)]
  unfold stageVal
  rw [if_neg (not_le.mpr hV)]

lemma valQ_default_4096 : valQ defaultCalib 4096 = 3254277 / 1143600 := by
  rw [valQ_eq_of_pos defaultCalib 4096 (by norm_num [defaultCalib]) (by norm_num [defaultCalib])]
  norm_num [defaultCalib]

lemma log_val_lb : 1 < Real.log ((3254277 / 1143600 : ℚ) : ℝ) := by
  have hcast : ((3254277 / 1143600 : ℚ) : ℝ) = (3254277 / 1143600 : ℝ) := by norm_num
  rw [hcast, Real.lt_log_iff_exp_lt (by norm_num)]
  calc Real.exp 1 < 2.7182818286 := Real.exp_one_lt_d9
    _ < 3254277 / 1143600 := by norm_num

lemma log_val_ub : Real.log ((3254277 / 1143600 : ℚ) : ℝ) < 1.1 := by
  have hcast : ((3254277 / 1143600 : ℚ) : ℝ) = (3254277 / 1143600 : ℝ) := by norm_num
  rw [hcast, Real.log_lt_iff_lt_exp (by norm_num)]
  have h1 : Real.exp (1.1 : ℝ) = Real.exp 1 * Real.exp 0.1 := by
    rw [← Real.exp_add]
    norm_num
  have h2 : (1.1 : ℝ) ≤ Real.exp 0.1 := by
    have := Real.add_one_le_exp (0.1 : ℝ)
    linarith
  have h3 : (2.7182818283 : ℝ) < Real.exp 1 := Real.exp_one_gt_d9
  rw [h1]
  calc (3254277 / 1143600 : ℝ) < 2.7182818283 * 1.1 := by norm_num
    _ ≤ Real.exp 1 * Real.exp 0.1 := by
      apply mul_le_mul (le_of_lt h3) h2 (by norm_num)
      linarith

lemma raw2temp_default_4096_eq :
    raw2temp defaultCalib 4096 =
      (15068 / 10 : ℝ) / Real.log ((3254277 / 1143600 : ℚ) : ℝ) - 273.15 := by
  unfold raw2temp stageTemp
  rw [valQ_default_4096]
  norm_num [defaultCalib]

lemma raw2temp_default_4096_lb : (1096 : ℝ) < raw2temp defaultCalib 4096 := by
  rw [raw2temp_default_4096_eq]
  have hub := log_val_ub
  have hlb := log_val_lb
  have hpos : 0 < Real.log ((3254277 / 1143600 : ℚ) : ℝ) := by linarith
  have hkey : (15068 / 10 : ℝ) / 1.1 <
      (15068 / 10 : ℝ) / Real.log ((3254277 / 1143600 : ℚ) : ℝ) :=
    div_lt_div_of_pos_left (by norm_num) hpos hub
  have : (15068 / 10 : ℝ) / 1.1 = 15068 / 11 := by norm_num
  rw [this] at hkey
  have : (1096 : ℝ) + 273.15 < 15068 / 11 := by norm_num
  linarith

lemma raw2temp_default_4096_ub : raw2temp defaultCalib 4096 < 1234 := by
  rw [raw2temp_default_4096_eq]
  have hlb := log_val_lb
  have hpos : (0 : ℝ) < 1 := by norm_num
  have hkey : (15068 / 10 : ℝ) / Real.log ((3254277 / 1143600 : ℚ) : ℝ) <
      (15068 / 10 : ℝ) / 1 :=
    div_lt_div_of_pos_left (by norm_num) hpos hlb
  have : (15068 / 10 : ℝ) / 1 = 15068 / 10 := by norm_num
  rw [this] at hkey
  have : (15068 / 10 : ℝ) - 273.15 < 1234 := by norm_num
  linarith

/-! ## Claim C3 -/

/-- A calibration that is valid per the claim — Emissivity 0.95 within
0.1..1.0 and all Planck constants finite — but with `PlanckR1 = 0`. -/
def calR1zero : Calib :=
  { PlanckR1 := 0
    PlanckB := 15068 / 10
    PlanckF := 1
    PlanckO := -7340
    Emissivity := 95 / 100
    ReflectedApparentTemperature := 20 }

/-- Claim C3 counterexample: `calR1zero` satisfies the claim's validity
conditions (Emissivity within 0.1..1.0, finite Planck constants), yet
`raw2temp(4096)` evaluates `B / log 1 = B / 0`, which is not finite: the
finiteness-instrumented conversion returns `none`. -/
theorem raw2temp_not_finite_cex :
    ((1 : ℚ) / 10 ≤ calR1zero.Emissivity ∧ calR1zero.Emissivity ≤ 1) ∧
    raw2tempChecked calR1zero 4096 = none := by
  constructor
  · norm_num [calR1zero]
  · have hval : valQ calR1zero 4096 = 1 := by
      rw [valQ_eq_of_pos calR1zero 4096 (by norm_num [calR1zero]) (by norm_num [calR1zero])]
      norm_num [calR1zero]
    unfold raw2tempChecked
    rw [if_pos hval]

/-- Claim C3 (amended): for every raw count and every calibration with
Emissivity within 0.1..1.0, `PlanckR1 > 0` and `PlanckF ≥ 1` (as the
defaults are), `raw2temp` is finite: the log argument stays strictly
above 1, so no division by zero occurs. -/
theorem raw2temp_finite (c : Calib) (r : ℚ)
    (hE1 : 1 / 10 ≤ c.Emissivity) (hE2 : c.Emissivity ≤ 1)
    (hR1 : 0 < c.PlanckR1) (hF : 1 ≤ c.PlanckF) :
    (raw2tempChecked c r).isSome = true := by
  have h := valQ_gt_one c r hR1 hF
  unfold raw2tempChecked
  rw [if_neg (ne_of_gt h)]
  rfl

/-- Claim C3 witness: the amended statement instantiated at the default
calibration and raw count 4096. -/
theorem raw2temp_finite_witness :
    ((1 : ℚ) / 10 ≤ defaultCalib.Emissivity ∧ defaultCalib.Emissivity ≤ 1 ∧
      0 < defaultCalib.PlanckR1 ∧ 1 ≤ defaultCalib.PlanckF) ∧
    (raw2tempChecked defaultCalib 4096).isSome = true :=
  ⟨by norm_num [defaultCalib],
    raw2temp_finite defaultCalib 4096 (by norm_num [defaultCalib])
      (by norm_num [defaultCalib]) (by norm_num [defaultCalib]) (by norm_num [defaultCalib])⟩

/-! ## Claim C5 -/

/-- Claim C5 counterexample: with the default calibration,
`raw2temp(4096)` is not within ±0.1 of 12.6 °C — it exceeds 1096 °C. -/
theorem raw2temp_4096_not_12_6_cex :
    ¬ (|raw2temp defaultCalib 4096 - 12.6| ≤ (0.1 : ℝ)) := by
  intro h
  have h2 := (abs_le.mp h).2
  have h3 := raw2temp_default_4096_lb
  have : raw2temp defaultCalib 4096 ≤ 12.7 := by linarith [h2]
  norm_num at this
  linarith

/-- Claim C5 (amended): for every raw count `r > PlanckO` with
`R1/(r−O) + F > 0`, `raw2temp(r) = B / ln(R1/(r−O) + F) − 273.15`; with
the default calibration `raw2temp(4096)` lies strictly between 1096 °C
and 1234 °C (about 1167.7 °C), not near 12.6 °C. -/
theorem raw2temp_formula_and_value (c : Calib) (r : ℚ)
    (hO : c.PlanckO < r)
    (hV : 0 < c.PlanckR1 / (r - c.PlanckO) + c.PlanckF) :
    raw2temp c r =
      (c.PlanckB : ℝ) /
        Real.log ((c.PlanckR1 : ℝ) / ((r : ℝ) - (c.PlanckO : ℝ)) + (c.PlanckF : ℝ)) - 273.15 ∧
    (1096 : ℝ) < raw2temp defaultCalib 4096 ∧ raw2temp defaultCalib 4096 < 1234 := by
  refine ⟨?_, raw2temp_default_4096_lb, raw2temp_default_4096_ub⟩
  unfold raw2temp stageTemp
  rw [valQ_eq_of_pos c r hO hV]
  norm_cast

/-- Claim C5 witness: the amended statement instantiated at the default
calibration and raw count 4096. -/
theorem raw2temp_formula_and_value_witness :
    (defaultCalib.PlanckO < (4096 : ℚ) ∧
      0 < defaultCalib.PlanckR1 / ((4096 : ℚ) - defaultCalib.PlanckO) + defaultCalib.PlanckF) ∧
    (raw2temp defaultCalib 4096 =
        (defaultCalib.PlanckB : ℝ) /
          Real.log ((defaultCalib.PlanckR1 : ℝ) / (((4096 : ℚ) : ℝ) - (defaultCalib.PlanckO : ℝ)) +
            (defaultCalib.PlanckF : ℝ)) - 273.15 ∧
      (1096 : ℝ) < raw2temp defaultCalib 4096 ∧ raw2temp defaultCalib 4096 < 1234) :=
  ⟨by norm_num [defaultCalib],
    raw2temp_formula_and_value defaultCalib 4096 (by norm_num [defaultCalib])
      (by norm_num [defaultCalib])⟩

/-! ## Claim C6 -/

lemma mapMat_getD (f : α → β) (M : List (List α)) (i : Nat) (hi : i < M.length) :
    (mapMat f M).getD i [] = (M.getD i []).map f := by
  unfold mapMat
  have h : M[i]? = some M[i] := List.getElem?_eq_getElem hi
  rw [List.getD_eq_getElem?_getD, List.getD_eq_getElem?_getD, List.getElem?_map, h]
  simp

lemma map_getD_of_lt (f : α → β) (row : List α) (j : Nat) (hj : j < row.length)
    (d : α) (e : β) : (row.map f).getD j e = f (row.getD j d) := by
  have h : row[j]? = some row[j] := List.getElem?_eq_getElem hj
  rw [List.getD_eq_getElem?_getD, List.getD_eq_getElem?_getD, List.getElem?_map, h]
  simp

lemma length_mapMat (f : α → β) (M : List (List α)) : (mapMat f M).length = M.length := by
  simp [mapMat]

lemma mapMat_row_length (f : α → β) (M : List (List α)) (row : List β)
    (h : row ∈ mapMat f M) : ∃ r0 ∈ M, row = r0.map f ∧ row.length = r0.length := by
  unfold mapMat at h
  obtain ⟨r0, hr0, rfl⟩ := List.mem_map.mp h
  exact ⟨r0, hr0, rfl, by simp⟩

/-- Claim C6: for a 60×80 matrix, converting the whole matrix equals
converting each element as a scalar — `raw2temp(M)[i][j] =
raw2temp(M[i][j])` — and the scalar path agrees with the
single-element-matrix path. -/
theorem raw2temp_matrix_elementwise (c : Calib) (M : List (List ℚ)) (r : ℚ) (i j : Nat)
    (h60 : M.length = 60) (h80 : ∀ row ∈ M, row.length = 80)
    (hi : i < 60) (hj : j < 80) :
    ((raw2tempMat c M).getD i []).getD j 0 = raw2temp c ((M.getD i []).getD j 0) ∧
    raw2tempMat c [[r]] = [[raw2temp c r]] := by
  constructor
  · have hiM : i < M.length := by omega
    have hrow_mem : M.getD i [] ∈ M := by
      have h : M[i]? = some M[i] := List.getElem?_eq_getElem hiM
      rw [List.getD_eq_getElem?_getD, h]
      exact List.getElem_mem hiM
    have hrowlen : (M.getD i []).length = 80 := h80 _ hrow_mem
    have hjrow : j < (M.getD i []).length := by omega
    unfold raw2tempMat
    rw [mapMat_getD _ _ i (by rw [length_mapMat, length_mapMat, length_mapMat]; exact hiM)]
    rw [mapMat_getD _ _ i (by rw [length_mapMat, length_mapMat]; exact hiM)]
    rw [mapMat_getD _ _ i (by rw [length_mapMat]; exact hiM)]
    rw [mapMat_getD _ _ i hiM]
    rw [map_getD_of_lt _ _ j (by simpa using hjrow) 0]
    rw [map_getD_of_lt _ _ j (by simpa using hjrow) 0]
    rw [map_getD_of_lt _ _ j (by simpa using hjrow) 0]
    rw [map_getD_of_lt _ _ j hjrow 0]
    rfl
  · rfl

/-- Claim C6 witness: the statement instantiated at the default
calibration, the all-zero 60×80 matrix, and cell (0, 0). -/
theorem raw2temp_matrix_elementwise_witness :
    ((List.replicate 60 (List.replicate 80 (0 : ℚ))).length = 60 ∧
      (∀ row ∈ List.replicate 60 (List.replicate 80 (0 : ℚ)), row.length = 80) ∧
      (0 : Nat) < 60 ∧ (0 : Nat) < 80) ∧
    (((raw2tempMat defaultCalib (List.replicate 60 (List.replicate 80 0))).getD 0 []).getD 0 0 =
        raw2temp defaultCalib
          (((List.replicate 60 (List.replicate 80 0)).getD 0 []).getD 0 0) ∧
      raw2tempMat defaultCalib [[0]] = [[raw2temp defaultCalib 0]]) := by
  refine ⟨⟨by simp, ?_, by norm_num, by norm_num⟩, ?_⟩
  · intro row hr
    rw [List.eq_of_mem_replicate hr]
    simp
  · exact raw2temp_matrix_elementwise defaultCalib (List.replicate 60 (List.replicate 80 0)) 0 0 0
      (by simp)
      (fun row hr => by rw [List.eq_of_mem_replicate hr]; simp)
      (by norm_num) (by norm_num)

/-! ## Claim C4 -/

lemma foldl_min_le_init (a : ℝ) (l : List ℝ) : l.foldl min a ≤ a := by
  induction l generalizing a with
  | nil => exact le_refl a
  | cons x xs ih => exact le_trans (ih (min a x)) (min_le_left a x)

lemma foldl_min_le_mem (b : ℝ) (l : List ℝ) (hb : b ∈ l) : ∀ a, l.foldl min a ≤ b := by
  induction l with
  | nil => cases hb
  | cons x xs ih =>
    intro a
    rcases List.mem_cons.mp hb with h | h
    · subst h
      exact le_trans (foldl_min_le_init (min a b) xs) (min_le_right a b)
    · exact ih h (min a x)

lemma foldl_min_mem (a : ℝ) (l : List ℝ) : l.foldl min a = a ∨ l.foldl min a ∈ l := by
  induction l generalizing a with
  | nil => exact Or.inl rfl
  | cons x xs ih =>
    rcases ih (min a x) with h | h
    · rcases min_choice a x with h2 | h2
      · left
        show xs.foldl min (min a x) = a
        rw [h, h2]
      · right
        show xs.foldl min (min a x) ∈ x :: xs
        rw [h, h2]
        exact List.mem_cons_self x xs
    · right
      exact List.mem_cons_of_mem x h

lemma foldl_max_ge_init (a : ℝ) (l : List ℝ) : a ≤ l.foldl max a := by
  induction l generalizing a with
  | nil => exact le_refl a
  | cons x xs ih => exact le_trans (le_max_left a x) (ih (max a x))

lemma foldl_max_ge_mem (b : ℝ) (l : List ℝ) (hb : b ∈ l) : ∀ a, b ≤ l.foldl max a := by
  induction l with
  | nil => cases hb
  | cons x xs ih =>
    intro a
    rcases List.mem_cons.mp hb with h | h
    · subst h
      exact le_trans (le_max_right a b) (foldl_max_ge_init (max a b) xs)
    · exact ih h (max a x)

lemma foldl_max_mem (a : ℝ) (l : List ℝ) : l.foldl max a = a ∨ l.foldl max a ∈ l := by
  induction l generalizing a with
  | nil => exact Or.inl rfl
  | cons x xs ih =>
    rcases ih (max a x) with h | h
    · rcases max_choice a x with h2 | h2
      · left
        show xs.foldl max (max a x) = a
        rw [h, h2]
      · right
        show xs.foldl max (max a x) ∈ x :: xs
        rw [h, h2]
        exact List.mem_cons_self x xs
    · right
      exact List.mem_cons_of_mem x h

lemma listMin_spec (l : List ℝ) (hne : l ≠ []) :
    listMin l ∈ l ∧ ∀ b ∈ l, listMin l ≤ b := by
  cases l with
  | nil => exact absurd rfl hne
  | cons x xs =>
    have hdef : listMin (x :: xs) = xs.foldl min x := rfl
    rw [hdef]
    constructor
    · rcases foldl_min_mem x xs with h | h
      · rw [h]
        exact List.mem_cons_self x xs
      · exact List.mem_cons_of_mem x h
    · intro b hb
      rcases List.mem_cons.mp hb with h | h
      · subst h
        exact foldl_min_le_init b xs
      · exact foldl_min_le_mem b xs h x

lemma listMax_spec (l : List ℝ) (hne : l ≠ []) :
    listMax l ∈ l ∧ ∀ b ∈ l, b ≤ listMax l := by
  cases l with
  | nil => exact absurd rfl hne
  | cons x xs =>
    have hdef : listMax (x :: xs) = xs.foldl max x := rfl
    rw [hdef]
    constructor
    · rcases foldl_max_mem x xs with h | h
      · rw [h]
        exact List.mem_cons_self x xs
      · exact List.mem_cons_of_mem x h
    · intro b hb
      rcases List.mem_cons.mp hb with h | h
      · subst h
        exact foldl_max_ge_init b xs
      · exact foldl_max_ge_mem b xs h x

lemma mapMat_rows_length (f : α → β) (M : List (List α)) (w : Nat)
    (h : ∀ row ∈ M, row.length = w) : ∀ row ∈ mapMat f M, row.length = w := by
  intro row hr
  unfold mapMat at hr
  obtain ⟨r0, hr0, rfl⟩ := List.mem_map.mp hr
  simp [h r0 hr0]

lemma getD_flatten (w : Nat) (hw : 0 < w) :
    ∀ (L : List (List ℝ)) (i : Nat), (∀ r ∈ L, r.length = w) →
      (L.flatten).getD i 0 = (L.getD (i / w) []).getD (i % w) 0 := by
  intro L
  induction L with
  | nil =>
    intro i h
    simp [List.getD_eq_getElem?_getD]
  | cons r L ih =>
    intro i hrows
    have hr : r.length = w := hrows r (List.mem_cons_self r L)
    have hrows2 : ∀ q ∈ L, q.length = w := fun q hq => hrows q (List.mem_cons_of_mem r hq)
    rw [List.flatten_cons]
    by_cases hi : i < w
    · have hidx : i < r.length := by omega
      have h1 : (r ++ L.flatten)[i]? = r[i]? := List.getElem?_append_left hidx
      have hdiv : i / w = 0 := Nat.div_eq_of_lt hi
      have hmod : i % w = i := Nat.mod_eq_of_lt hi
      rw [List.getD_eq_getElem?_getD, h1, hdiv, hmod]
      rw [List.getD_cons_zero, ← List.getD_eq_getElem?_getD]
    · push_neg at hi
      have h1 : (r ++ L.flatten)[i]? = (L.flatten)[i - r.length]? :=
        List.getElem?_append_right (by omega)
      have hdiv : i / w = (i - w) / w + 1 := Nat.div_eq_sub_div hw hi
      have hmod : i % w = (i - w) % w := Nat.mod_eq_sub_mod hi
      rw [List.getD_eq_getElem?_getD, h1, hr, ← List.getD_eq_getElem?_getD]
      rw [ih (i - w) hrows2, hdiv, hmod, List.getD_cons_succ]

lemma findIdx_loc_spec (flat : List ℝ) (v : ℝ) (hmem : v ∈ flat) (hlen : flat.length = 4800) :
    (flat.findIdx fun x => decide (x = v)) % 80 < 80 ∧
    (flat.findIdx fun x => decide (x = v)) / 80 < 60 ∧
    flat.getD (flat.findIdx fun x => decide (x = v)) 0 = v := by
  have hex : ∃ x ∈ flat, (fun x => decide (x = v)) x = true := ⟨v, hmem, by simp⟩
  have hlt : (flat.findIdx fun x => decide (x = v)) < flat.length :=
    List.findIdx_lt_length_of_exists hex
  obtain ⟨y, hy⟩ : ∃ y, flat[(flat.findIdx fun x => decide (x = v))]? = some y :=
    ⟨_, List.getElem?_eq_getElem hlt⟩
  have hpy := List.findIdx_of_getElem?_eq_some hy
  have hyv : y = v := of_decide_eq_true hpy
  refine ⟨Nat.mod_lt _ (by norm_num), ?_, ?_⟩
  · rw [Nat.div_lt_iff_lt_mul (by norm_num : (0 : Nat) < 80)]
    omega
  · rw [List.getD_eq_getElem?_getD, hy, hyv]
    rfl

/-- Claim C4: for every frame built by the facade, `min_temp_c`,
`max_temp_c` and `mean_temp_c` are the minimum, maximum and mean of the
60×80 Celsius matrix obtained by converting `thermal_raw`, and
`coldspot` / `hotspot` are `(x, y)` coordinates — `x` a column in 0..79,
`y` a row in 0..59 — of cells attaining the minimum and maximum. -/
theorem make_frame_stats (c : Calib) (p : ParsedFrame)
    (h60 : p.thermal_raw.length = 60)
    (h80 : ∀ row ∈ p.thermal_raw, row.length = 80) :
    ((make_frame c p).min_temp_c ∈ (raw_to_celsius c (matQ p.thermal_raw)).flatten ∧
      ∀ x ∈ (raw_to_celsius c (matQ p.thermal_raw)).flatten, (make_frame c p).min_temp_c ≤ x) ∧
    ((make_frame c p).max_temp_c ∈ (raw_to_celsius c (matQ p.thermal_raw)).flatten ∧
      ∀ x ∈ (raw_to_celsius c (matQ p.thermal_raw)).flatten, x ≤ (make_frame c p).max_temp_c) ∧
    (make_frame c p).mean_temp_c =
      (raw_to_celsius c (matQ p.thermal_raw)).flatten.sum / 4800 ∧
    ((make_frame c p).coldspot.1 < 80 ∧ (make_frame c p).coldspot.2 < 60 ∧
      ((raw_to_celsius c (matQ p.thermal_raw)).getD (make_frame c p).coldspot.2 []).getD
        (make_frame c p).coldspot.1 0 = (make_frame c p).min_temp_c) ∧
    ((make_frame c p).hotspot.1 < 80 ∧ (make_frame c p).hotspot.2 < 60 ∧
      ((raw_to_celsius c (matQ p.thermal_raw)).getD (make_frame c p).hotspot.2 []).getD
        (make_frame c p).hotspot.1 0 = (make_frame c p).max_temp_c) := by
  have hqrows : ∀ row ∈ matQ p.thermal_raw, row.length = 80 :=
    mapMat_rows_length _ _ _ h80
  have hclen : (raw_to_celsius c (matQ p.thermal_raw)).length = 60 := by
    unfold raw_to_celsius raw2tempMat
    rw [length_mapMat, length_mapMat, length_mapMat, length_mapMat]
    unfold matQ
    rw [length_mapMat]
    exact h60
  have hcrows : ∀ row ∈ raw_to_celsius c (matQ p.thermal_raw), row.length = 80 := by
    unfold raw_to_celsius raw2tempMat
    exact mapMat_rows_length _ _ _
      (mapMat_rows_length _ _ _ (mapMat_rows_length _ _ _ (mapMat_rows_length _ _ _ hqrows)))
  have hmaplen : (raw_to_celsius c (matQ p.thermal_raw)).map List.length =
      List.replicate 60 80 := by
    rw [List.eq_replicate_iff]
    refine ⟨by rw [List.length_map, hclen], ?_⟩
    intro x hx
    obtain ⟨row, hrow, rfl⟩ := List.mem_map.mp hx
    exact hcrows row hrow
  have hflatlen : (raw_to_celsius c (matQ p.thermal_raw)).flatten.length = 4800 := by
    rw [List.length_flatten, hmaplen, List.sum_replicate, smul_eq_mul]
  have hne : (raw_to_celsius c (matQ p.thermal_raw)).flatten ≠ [] := by
    intro h
    rw [h] at hflatlen
    simp at hflatlen
  have hminspec := listMin_spec _ hne
  have hmaxspec := listMax_spec _ hne
  have hminloc := findIdx_loc_spec _ (listMin ((raw_to_celsius c (matQ p.thermal_raw)).flatten))
    hminspec.1 hflatlen
  have hmaxloc := findIdx_loc_spec _ (listMax ((raw_to_celsius c (matQ p.thermal_raw)).flatten))
    hmaxspec.1 hflatlen
  have hcell : ∀ i : Nat,
      ((raw_to_celsius c (matQ p.thermal_raw)).getD (i / 80) []).getD (i % 80) 0 =
        ((raw_to_celsius c (matQ p.thermal_raw)).flatten).getD i 0 :=
    fun i => (getD_flatten 80 (by norm_num) _ i hcrows).symm
  refine ⟨⟨hminspec.1, hminspec.2⟩, ⟨hmaxspec.1, hmaxspec.2⟩, ?_, ?_, ?_⟩
  · show ((raw_to_celsius c (matQ p.thermal_raw)).flatten).sum /
        ((((raw_to_celsius c (matQ p.thermal_raw)).flatten).length : Nat) : ℝ) =
      ((raw_to_celsius c (matQ p.thermal_raw)).flatten).sum / 4800
    rw [hflatlen]
    norm_num
  · refine ⟨hminloc.1, hminloc.2.1, ?_⟩
    show ((raw_to_celsius c (matQ p.thermal_raw)).getD
        ((((raw_to_celsius c (matQ p.thermal_raw)).flatten).findIdx
          fun x => decide (x = listMin ((raw_to_celsius c (matQ p.thermal_raw)).flatten))) / 80) []).getD
        ((((raw_to_celsius c (matQ p.thermal_raw)).flatten).findIdx
          fun x => decide (x = listMin ((raw_to_celsius c (matQ p.thermal_raw)).flatten))) % 80) 0 =
      listMin ((raw_to_celsius c (matQ p.thermal_raw)).flatten)
    rw [hcell]
    exact hminloc.2.2
  · refine ⟨hmaxloc.1, hmaxloc.2.1, ?_⟩
    show ((raw_to_celsius c (matQ p.thermal_raw)).getD
        ((((raw_to_celsius c (matQ p.thermal_raw)).flatten).findIdx
          fun x => decide (x = listMax ((raw_to_celsius c (matQ p.thermal_raw)).flatten))) / 80) []).getD
        ((((raw_to_celsius c (matQ p.thermal_raw)).flatten).findIdx
          fun x => decide (x = listMax ((raw_to_celsius c (matQ p.thermal_raw)).flatten))) % 80) 0 =
      listMax ((raw_to_celsius c (matQ p.thermal_raw)).flatten)
    rw [hcell]
    exact hmaxloc.2.2

/-- A concrete parsed frame carrying the all-zero 60×80 thermal matrix. -/
def witnessFrame : ParsedFrame := ⟨zeroMatrix, none, none, 9604, 9600, 0, 0⟩

/-- Claim C4 witness: the statement instantiated at the default
calibration and the concrete frame `witnessFrame`. -/
theorem make_frame_stats_witness :
    (witnessFrame.thermal_raw.length = 60 ∧
      ∀ row ∈ witnessFrame.thermal_raw, row.length = 80) ∧
    (((make_frame defaultCalib witnessFrame).min_temp_c ∈
        (raw_to_celsius defaultCalib (matQ witnessFrame.thermal_raw)).flatten ∧
      ∀ x ∈ (raw_to_celsius defaultCalib (matQ witnessFrame.thermal_raw)).flatten,
        (make_frame defaultCalib witnessFrame).min_temp_c ≤ x) ∧
    ((make_frame defaultCalib witnessFrame).max_temp_c ∈
        (raw_to_celsius defaultCalib (matQ witnessFrame.thermal_raw)).flatten ∧
      ∀ x ∈ (raw_to_celsius defaultCalib (matQ witnessFrame.thermal_raw)).flatten,
        x ≤ (make_frame defaultCalib witnessFrame).max_temp_c) ∧
    (make_frame defaultCalib witnessFrame).mean_temp_c =
      (raw_to_celsius defaultCalib (matQ witnessFrame.thermal_raw)).flatten.sum / 4800 ∧
    ((make_frame defaultCalib witnessFrame).coldspot.1 < 80 ∧
      (make_frame defaultCalib witnessFrame).coldspot.2 < 60 ∧
      ((raw_to_celsius defaultCalib (matQ witnessFrame.thermal_raw)).getD
          (make_frame defaultCalib witnessFrame).coldspot.2 []).getD
        (make_frame defaultCalib witnessFrame).coldspot.1 0 =
        (make_frame defaultCalib witnessFrame).min_temp_c) ∧
    ((make_frame defaultCalib witnessFrame).hotspot.1 < 80 ∧
      (make_frame defaultCalib witnessFrame).hotspot.2 < 60 ∧
      ((raw_to_celsius defaultCalib (matQ witnessFrame.thermal_raw)).getD
          (make_frame defaultCalib witnessFrame).hotspot.2 []).getD
        (make_frame defaultCalib witnessFrame).hotspot.1 0 =
        (make_frame defaultCalib witnessFrame).max_temp_c)) := by
  have hlen : witnessFrame.thermal_raw.length = 60 := by
    simp [witnessFrame, zeroMatrix, THERMAL_HEIGHT]
  have hrows : ∀ row ∈ witnessFrame.thermal_raw, row.length = 80 := by
    intro row hr
    have : row = List.replicate THERMAL_WIDTH 0 := List.eq_of_mem_replicate hr
    rw [this]
    simp [THERMAL_WIDTH]
  exact ⟨⟨hlen, hrows⟩, make_frame_stats defaultCalib witnessFrame hlen hrows⟩

/-! ## Claim C8: reset vs. fresh parser -/

/-- Drop the `status_data` field of a parsed frame. -/
def eraseStatus (f : ParsedFrame) : ParsedFrame := { f with status_data := none }

/-- Two parser states that agree on capacity, on the valid-byte count,
and on the valid prefix of the buffer (the bytes beyond `buffer_ptr` are
stale and may differ). -/
def StEquiv (s t : FrameParser) : Prop :=
  s.buffer_size = t.buffer_size ∧
  s.buffer_ptr = t.buffer_ptr ∧
  s.buffer_ptr ≤ s.buffer_size ∧
  3 ≤ s.buffer_size ∧
  s.buffer.length = s.buffer_size ∧
  t.buffer.length = t.buffer_size ∧
  s.buffer.take s.buffer_ptr = t.buffer.take t.buffer_ptr

lemma take_listWrite_zero_of_len (l v : List Nat) (n : Nat) (h : v.length = n) :
    (listWrite l 0 v).take n = v := by
  rw [← h, take_listWrite_zero]

lemma length_listWrite_zero_of_le (l v : List Nat) (h : v.length ≤ l.length) :
    (listWrite l 0 v).length = l.length :=
  length_listWrite_zero l v h

lemma resync_from_chunk_equiv (sb tb d : List Nat) (p q c : Nat)
    (h3 : 3 ≤ c) (hls : sb.length = c) (hlt : tb.length = c) :
    StEquiv (resync_from_chunk ⟨sb, p, c⟩ d) (resync_from_chunk ⟨tb, q, c⟩ d) := by
  unfold StEquiv
  simp only [resync_from_chunk]
  cases hfm : find_magic d with
  | some pos =>
    simp only [hfm]
    have hb := find_magic_bound d pos hfm
    by_cases hc : c < d.length - pos
    · simp only [if_pos hc]
      have hlv : (pySlice d pos (pos + c)).length = c := by
        rw [pySlice_length]
        omega
      refine ⟨trivial, trivial, le_refl c, h3, ?_, ?_, ?_⟩
      · rw [length_listWrite_zero_of_le sb _ (by rw [hlv, hls])]
        exact hls
      · rw [length_listWrite_zero_of_le tb _ (by rw [hlv, hlt])]
        exact hlt
      · rw [take_listWrite_zero_of_len sb _ c hlv, take_listWrite_zero_of_len tb _ c hlv]
    · simp only [if_neg hc]
      have hlv : (pySlice d pos (pos + (d.length - pos))).length = d.length - pos := by
        rw [pySlice_length]
        omega
      refine ⟨trivial, trivial, by omega, h3, ?_, ?_, ?_⟩
      · rw [length_listWrite_zero_of_le sb _ (by rw [hlv]; omega)]
        exact hls
      · rw [length_listWrite_zero_of_le tb _ (by rw [hlv]; omega)]
        exact hlt
      · rw [take_listWrite_zero_of_len sb _ _ hlv, take_listWrite_zero_of_len tb _ _ hlv]
  | none =>
    simp only [hfm]
    have hlv : (d.drop (d.length - min 3 d.length)).length = min 3 d.length := by
      rw [List.length_drop]
      omega
    refine ⟨trivial, trivial, by omega, h3, ?_, ?_, ?_⟩
    · rw [length_listWrite_zero_of_le sb _ (by rw [hlv]; omega)]
      exact hls
    · rw [length_listWrite_zero_of_le tb _ (by rw [hlv]; omega)]
      exact hlt
    · rw [take_listWrite_zero_of_len sb _ _ hlv, take_listWrite_zero_of_len tb _ _ hlv]

lemma resync_buffer_equiv (sb tb : List Nat) (p c : Nat)
    (hple : p ≤ c) (h3 : 3 ≤ c) (hls : sb.length = c) (hlt : tb.length = c)
    (htake : sb.take p = tb.take p) :
    StEquiv (resync_buffer ⟨sb, p, c⟩) (resync_buffer ⟨tb, p, c⟩) := by
  unfold StEquiv
  have harg : pySlice sb 1 p = pySlice tb 1 p :=
    pySlice_of_take_eq htake 1 p (le_refl p)
  simp only [resync_buffer]
  rw [harg]
  cases hfm : find_magic (pySlice tb 1 p) with
  | some q =>
    simp only [hfm]
    have hb := find_magic_bound _ q hfm
    have hlenarg : (pySlice tb 1 p).length = p - 1 := by
      rw [pySlice_length]
      omega
    rw [hlenarg] at hb
    have hv : pySlice sb (q + 1) p = pySlice tb (q + 1) p :=
      pySlice_of_take_eq htake (q + 1) p (le_refl p)
    rw [hv]
    have hlv : (pySlice tb (q + 1) p).length = p - (q + 1) := by
      rw [pySlice_length]
      omega
    refine ⟨trivial, trivial, by omega, h3, ?_, ?_, ?_⟩
    · rw [length_listWrite_zero_of_le sb _ (by rw [hlv]; omega)]
      exact hls
    · rw [length_listWrite_zero_of_le tb _ (by rw [hlv]; omega)]
      exact hlt
    · rw [take_listWrite_zero_of_len sb _ _ hlv, take_listWrite_zero_of_len tb _ _ hlv]
  | none =>
    simp only [hfm]
    have hv : pySlice sb (p - min 3 p) p = pySlice tb (p - min 3 p) p :=
      pySlice_of_take_eq htake (p - min 3 p) p (le_refl p)
    rw [hv]
    have hlv : (pySlice tb (p - min 3 p) p).length = min 3 p := by
      rw [pySlice_length]
      omega
    refine ⟨trivial, trivial, by omega, h3, ?_, ?_, ?_⟩
    · rw [length_listWrite_zero_of_le sb _ (by rw [hlv]; omega)]
      exact hls
    · rw [length_listWrite_zero_of_le tb _ (by rw [hlv]; omega)]
      exact hlt
    · rw [take_listWrite_zero_of_len sb _ _ hlv, take_listWrite_zero_of_len tb _ _ hlv]

lemma try_parse_frame_wait_header (b : List Nat) (p c : Nat)
    (hp : p < HEADER_SIZE + 4) :
    try_parse_frame ⟨b, p, c⟩ = (⟨b, p, c⟩, none) := by
  simp only [try_parse_frame, if_pos hp]

lemma try_parse_frame_bad (b : List Nat) (p c : Nat)
    (hp : ¬ (p < HEADER_SIZE + 4))
    (hbad : u32le b 8 = 0 ∨ c < u32le b 8 + HEADER_SIZE) :
    try_parse_frame ⟨b, p, c⟩ = (⟨b, 0, c⟩, none) := by
  simp only [try_parse_frame, if_neg hp, if_pos hbad]

lemma try_parse_frame_wait_data (b : List Nat) (p c : Nat)
    (hp : ¬ (p < HEADER_SIZE + 4))
    (hbad : ¬ (u32le b 8 = 0 ∨ c < u32le b 8 + HEADER_SIZE))
    (hwait : p < HEADER_SIZE + u32le b 8) :
    try_parse_frame ⟨b, p, c⟩ = (⟨b, p, c⟩, none) := by
  simp only [try_parse_frame, if_neg hp, if_neg hbad, if_pos hwait]

lemma try_parse_frame_chk (b : List Nat) (p c : Nat)
    (hp : ¬ (p < HEADER_SIZE + 4))
    (hbad : ¬ (u32le b 8 = 0 ∨ c < u32le b 8 + HEADER_SIZE))
    (hwait : ¬ (p < HEADER_SIZE + u32le b 8))
    (hchk : p < HEADER_SIZE + u32le b 12 + u32le b 16) :
    try_parse_frame ⟨b, p, c⟩ = (⟨b, 0, c⟩, none) := by
  simp only [try_parse_frame, if_neg hp, if_neg hbad, if_neg hwait, if_pos hchk]

lemma try_parse_frame_full (b : List Nat) (p c : Nat)
    (hp : ¬ (p < HEADER_SIZE + 4))
    (hbad : ¬ (u32le b 8 = 0 ∨ c < u32le b 8 + HEADER_SIZE))
    (hwait : ¬ (p < HEADER_SIZE + u32le b 8))
    (hchk : ¬ (p < HEADER_SIZE + u32le b 12 + u32le b 16)) :
    try_parse_frame ⟨b, p, c⟩ =
      (⟨if 0 < p - (HEADER_SIZE + u32le b 8) then
          listWrite b 0 (pySlice b (HEADER_SIZE + u32le b 8) p)
        else b,
        p - (HEADER_SIZE + u32le b 8), c⟩,
       some ⟨if THERMAL_PIXELS * 2 ≤ (pySlice b HEADER_SIZE (HEADER_SIZE + u32le b 12)).length
               then reshape6080 (toU16be
                 ((pySlice b HEADER_SIZE (HEADER_SIZE + u32le b 12)).take (THERMAL_PIXELS * 2)))
               else zeroMatrix,
             if 0 < u32le b 16 then
               some (pySlice b (HEADER_SIZE + u32le b 12)
                 (HEADER_SIZE + u32le b 12 + u32le b 16))
             else none,
             if 0 < u32le b 20 then
               some (pySlice b (HEADER_SIZE + u32le b 12 + u32le b 16)
                 (HEADER_SIZE + u32le b 12 + u32le b 16 + u32le b 20))
             else none,
             u32le b 8, u32le b 12, u32le b 16, u32le b 20⟩) := by
  simp only [try_parse_frame, if_neg hp, if_neg hbad, if_neg hwait, if_neg hchk]

lemma consumed_equiv (sb tb : List Nat) (p c consumed : Nat)
    (hcons : consumed ≤ p) (hple : p ≤ c) (h3 : 3 ≤ c)
    (hls : sb.length = c) (hlt : tb.length = c) (htake : sb.take p = tb.take p) :
    StEquiv
      ⟨if 0 < p - consumed then listWrite sb 0 (pySlice tb consumed p) else sb,
        p - consumed, c⟩
      ⟨if 0 < p - consumed then listWrite tb 0 (pySlice tb consumed p) else tb,
        p - consumed, c⟩ := by
  unfold StEquiv
  have hlv : (pySlice tb consumed p).length = p - consumed := by
    rw [pySlice_length]
    omega
  by_cases hrem : 0 < p - consumed
  · simp only [if_pos hrem]
    refine ⟨trivial, trivial, by omega, h3, ?_, ?_, ?_⟩
    · rw [length_listWrite_zero_of_le sb _ (by rw [hlv]; omega)]
      exact hls
    · rw [length_listWrite_zero_of_le tb _ (by rw [hlv]; omega)]
      exact hlt
    · rw [take_listWrite_zero_of_len sb _ _ hlv, take_listWrite_zero_of_len tb _ _ hlv]
  · simp only [if_neg hrem]
    refine ⟨trivial, trivial, by omega, h3, hls, hlt, ?_⟩
    rw [show p - consumed = 0 by omega]
    rfl

lemma try_parse_equiv (sb tb : List Nat) (p c : Nat)
    (hple : p ≤ c) (h3 : 3 ≤ c) (hls : sb.length = c) (hlt : tb.length = c)
    (htake : sb.take p = tb.take p) :
    StEquiv (try_parse_frame ⟨sb, p, c⟩).1 (try_parse_frame ⟨tb, p, c⟩).1 ∧
    Option.map eraseStatus (try_parse_frame ⟨sb, p, c⟩).2 =
      Option.map eraseStatus (try_parse_frame ⟨tb, p, c⟩).2 := by
  by_cases hp : p < HEADER_SIZE + 4
  · rw [try_parse_frame_wait_header sb p c hp, try_parse_frame_wait_header tb p c hp]
    exact ⟨⟨rfl, rfl, hple, h3, hls, hlt, htake⟩, rfl⟩
  · have hp32 : 32 ≤ p := by
      simp only [HEADER_SIZE] at hp
      omega
    have hu8 : u32le sb 8 = u32le tb 8 := u32le_of_take_eq htake 8 (by omega)
    have hu12 : u32le sb 12 = u32le tb 12 := u32le_of_take_eq htake 12 (by omega)
    have hu16 : u32le sb 16 = u32le tb 16 := u32le_of_take_eq htake 16 (by omega)
    have hu20 : u32le sb 20 = u32le tb 20 := u32le_of_take_eq htake 20 (by omega)
    by_cases hbad : u32le tb 8 = 0 ∨ c < u32le tb 8 + HEADER_SIZE
    · rw [try_parse_frame_bad sb p c hp (by rw [hu8]; exact hbad),
        try_parse_frame_bad tb p c hp hbad]
      exact ⟨⟨rfl, rfl, Nat.zero_le c, h3, hls, hlt, rfl⟩, rfl⟩
    · by_cases hwait : p < HEADER_SIZE + u32le tb 8
      · rw [try_parse_frame_wait_data sb p c hp (by rw [hu8]; exact hbad)
          (by rw [hu8]; exact hwait),
          try_parse_frame_wait_data tb p c hp hbad hwait]
        exact ⟨⟨rfl, rfl, hple, h3, hls, hlt, htake⟩, rfl⟩
      · by_cases hchk : p < HEADER_SIZE + u32le tb 12 + u32le tb 16
        · rw [try_parse_frame_chk sb p c hp (by rw [hu8]; exact hbad)
            (by rw [hu8]; exact hwait) (by rw [hu12, hu16]; exact hchk),
            try_parse_frame_chk tb p c hp hbad hwait hchk]
          exact ⟨⟨rfl, rfl, Nat.zero_le c, h3, hls, hlt, rfl⟩, rfl⟩
        · rw [try_parse_frame_full sb p c hp (by rw [hu8]; exact hbad)
            (by rw [hu8]; exact hwait) (by rw [hu12, hu16]; exact hchk),
            try_parse_frame_full tb p c hp hbad hwait hchk]
          rw [hu8, hu12, hu16, hu20]
          have hts_le : HEADER_SIZE + u32le tb 12 ≤ p := by omega
          have hjp_le : HEADER_SIZE + u32le tb 12 + u32le tb 16 ≤ p := by omega
          have hsl_th : pySlice sb HEADER_SIZE (HEADER_SIZE + u32le tb 12) =
              pySlice tb HEADER_SIZE (HEADER_SIZE + u32le tb 12) :=
            pySlice_of_take_eq htake _ _ hts_le
          have hsl_jp : pySlice sb (HEADER_SIZE + u32le tb 12)
              (HEADER_SIZE + u32le tb 12 + u32le tb 16) =
              pySlice tb (HEADER_SIZE + u32le tb 12)
                (HEADER_SIZE + u32le tb 12 + u32le tb 16) :=
            pySlice_of_take_eq htake _ _ hjp_le
          have hsl_co : pySlice sb (HEADER_SIZE + u32le tb 8) p =
              pySlice tb (HEADER_SIZE + u32le tb 8) p :=
            pySlice_of_take_eq htake _ _ (le_refl p)
          rw [hsl_th, hsl_jp, hsl_co]
          exact ⟨consumed_equiv sb tb p c (HEADER_SIZE + u32le tb 8)
            (not_lt.mp hwait) hple h3 hls hlt htake, rfl⟩

lemma add_chunk_equiv (sb tb d : List Nat) (p c : Nat)
    (hple : p ≤ c) (h3 : 3 ≤ c) (hls : sb.length = c) (hlt : tb.length = c)
    (htake : sb.take p = tb.take p) :
    StEquiv (add_chunk ⟨sb, p, c⟩ d).1 (add_chunk ⟨tb, p, c⟩ d).1 ∧
    Option.map eraseStatus (add_chunk ⟨sb, p, c⟩ d).2 =
      Option.map eraseStatus (add_chunk ⟨tb, p, c⟩ d).2 := by
  by_cases hd : d = []
  · subst hd
    exact ⟨⟨rfl, rfl, hple, h3, hls, hlt, htake⟩, rfl⟩
  · by_cases hov : c ≤ p + d.length
    · have e1 : add_chunk ⟨sb, p, c⟩ d = (resync_from_chunk ⟨sb, p, c⟩ d, none) := by
        simp only [add_chunk, if_neg hd, if_pos hov]
      have e2 : add_chunk ⟨tb, p, c⟩ d = (resync_from_chunk ⟨tb, p, c⟩ d, none) := by
        simp only [add_chunk, if_neg hd, if_pos hov]
      rw [e1, e2]
      exact ⟨resync_from_chunk_equiv sb tb d p p c h3 hls hlt, rfl⟩
    · have e1 : add_chunk ⟨sb, p, c⟩ d =
          (if p + d.length < 4 then (⟨listWrite sb p d, p + d.length, c⟩, none)
           else if pySlice (listWrite sb p d) 0 4 ≠ MAGIC_BYTES then
             (resync_buffer ⟨listWrite sb p d, p + d.length, c⟩, none)
           else try_parse_frame ⟨listWrite sb p d, p + d.length, c⟩) := by
        simp only [add_chunk, if_neg hd, if_neg hov]
      have e2 : add_chunk ⟨tb, p, c⟩ d =
          (if p + d.length < 4 then (⟨listWrite tb p d, p + d.length, c⟩, none)
           else if pySlice (listWrite tb p d) 0 4 ≠ MAGIC_BYTES then
             (resync_buffer ⟨listWrite tb p d, p + d.length, c⟩, none)
           else try_parse_frame ⟨listWrite tb p d, p + d.length, c⟩) := by
        simp only [add_chunk, if_neg hd, if_neg hov]
      rw [e1, e2]
      have hls2 : (listWrite sb p d).length = c := by
        rw [length_listWrite sb d p (by omega)]
        exact hls
      have hlt2 : (listWrite tb p d).length = c := by
        rw [length_listWrite tb d p (by omega)]
        exact hlt
      have htake2 : (listWrite sb p d).take (p + d.length) =
          (listWrite tb p d).take (p + d.length) := by
        rw [take_listWrite sb d p (by omega), take_listWrite tb d p (by omega), htake]
      by_cases h4 : p + d.length < 4
      · simp only [if_pos h4]
        exact ⟨⟨rfl, rfl, by dsimp only; omega, h3, hls2, hlt2, htake2⟩, trivial⟩
      · simp only [if_neg h4]
        have hmageq : pySlice (listWrite sb p d) 0 4 = pySlice (listWrite tb p d) 0 4 :=
          pySlice_of_take_eq htake2 0 4 (by omega)
        rw [hmageq]
        by_cases hm : pySlice (listWrite tb p d) 0 4 ≠ MAGIC_BYTES
        · simp only [if_pos hm]
          exact ⟨resync_buffer_equiv _ _ (p + d.length) c (by omega) h3 hls2 hlt2 htake2, trivial⟩
        · simp only [if_neg hm]
          exact try_parse_equiv _ _ (p + d.length) c (by omega) h3 hls2 hlt2 htake2

lemma add_chunk_equiv_st (s t : FrameParser) (d : List Nat) (h : StEquiv s t) :
    StEquiv (add_chunk s d).1 (add_chunk t d).1 ∧
    Option.map eraseStatus (add_chunk s d).2 = Option.map eraseStatus (add_chunk t d).2 := by
  obtain ⟨sb, sp, sc⟩ := s
  obtain ⟨tb, tp, tc⟩ := t
  obtain ⟨hsz, hptr, hple, h3, hls, hlt, htake⟩ := h
  dsimp only at hsz hptr hple h3 hls hlt htake
  subst hsz
  subst hptr
  exact add_chunk_equiv sb tb d sp sc hple h3 hls hlt htake

lemma runChunks_equiv (chunks : List (List Nat)) : ∀ (s t : FrameParser), StEquiv s t →
    (runChunks s chunks).2.map (Option.map eraseStatus) =
      (runChunks t chunks).2.map (Option.map eraseStatus) := by
  induction chunks with
  | nil => intro s t h; rfl
  | cons d rest ih =>
    intro s t h
    have hstep := add_chunk_equiv_st s t d h
    show Option.map eraseStatus (add_chunk s d).2 ::
        (runChunks (add_chunk s d).1 rest).2.map (Option.map eraseStatus) =
      Option.map eraseStatus (add_chunk t d).2 ::
        (runChunks (add_chunk t d).1 rest).2.map (Option.map eraseStatus)
    rw [hstep.2, ih _ _ hstep.1]

/-- Claim C8 counterexample: a parser that processed 50 bytes of noise
and was then `reset()` does not behave like a freshly constructed parser
of the same capacity: fed the same frame (whose declared `status_size`
overruns the wire bytes), the two emit frames with different
`status_data` — the reset parser's frame contains stale noise bytes. -/
theorem reset_not_equiv_fresh_cex :
    (add_chunk ((add_chunk (FrameParser.init 100) c8junk).1.reset) c8frame).2 ≠
      (add_chunk (FrameParser.init 100) c8frame).2 := by decide

/-- Claim C8 (amended): after `reset()`, the parser emits, on a fresh
input, the same sequence of results as a freshly constructed parser of
the same capacity, up to the `status_data` field of emitted frames —
that field may differ because, when a frame's declared sizes make its
status region extend past the buffered valid bytes, it is read from
stale buffer contents. -/
theorem reset_equiv_fresh_up_to_status (st : FrameParser) (chunks : List (List Nat))
    (hlen : st.buffer.length = st.buffer_size) (h3 : 3 ≤ st.buffer_size) :
    (runChunks st.reset chunks).2.map (Option.map eraseStatus) =
      (runChunks (FrameParser.init st.buffer_size) chunks).2.map (Option.map eraseStatus) := by
  apply runChunks_equiv
  refine ⟨rfl, rfl, Nat.zero_le _, h3, hlen, ?_, rfl⟩
  simp [FrameParser.init]

/-- Claim C8 witness: the amended statement instantiated at the parser
state reached after feeding 50 noise bytes, with the single-chunk input
`[c8frame]`. -/
theorem reset_equiv_fresh_up_to_status_witness :
    (((add_chunk (FrameParser.init 100) c8junk).1.buffer.length =
        (add_chunk (FrameParser.init 100) c8junk).1.buffer_size) ∧
      3 ≤ (add_chunk (FrameParser.init 100) c8junk).1.buffer_size) ∧
    (runChunks (add_chunk (FrameParser.init 100) c8junk).1.reset [c8frame]).2.map
        (Option.map eraseStatus) =
      (runChunks (FrameParser.init (add_chunk (FrameParser.init 100) c8junk).1.buffer_size)
        [c8frame]).2.map (Option.map eraseStatus) :=
  ⟨by decide,
    reset_equiv_fresh_up_to_status (add_chunk (FrameParser.init 100) c8junk).1 [c8frame]
      (by decide) (by decide)⟩
